import Mathlib

/-!
Verification of the retry/backoff wrapper (`src/stats.py`, `retry` /
`RetryLimitExceeded`) and of the opponent-pairing join inside
`dump_team_eff_json` (`src/dl.py`) of the `nba_data` repository.

The Python code is shallowly embedded: the wrapped callable becomes a
function from the invocation index (0-based) to `Except Exc G`; the side
effects of the retry loop (invocations, diagnostic prints, traceback
prints, sleeps) are recorded as an explicit event trace; the `while 1`
loop is run on explicit fuel so that the unreachable code after the loop
and a hypothetical out-of-range access into the backoff schedule remain
representable outcomes.
-/

namespace NbaData

/-- Exception classes relevant to `retry` in `src/stats.py`:
`requests.exceptions.ReadTimeout`, `urllib3.exceptions.ReadTimeoutError`,
the builtin `TimeoutError`, `ValueError`, and a catch-all for any other
exception class. -/
inductive Exc where
  | readTimeout
  | readTimeoutError
  | timeoutError
  | valueError (msg : String)
  | other (msg : String)
deriving DecidableEq, Repr

/-- The fields stored by `RetryLimitExceeded.__init__` in `src/stats.py`. -/
structure RetryLimitExceeded where
  func_name : String
  attempts : Nat
  kwargs : List (String × String)
  last_exception : Exc
deriving DecidableEq, Repr

/-- Observable events of one run of `retry`: an invocation of the wrapped
callable (`call i` is the invocation made with attempt counter `i`), the
diagnostic `print` naming the failed call and the chosen delay, the
`print(traceback.format_exc())`, and a `sleep`. -/
inductive Event where
  | call (i : Nat)
  | printFail (fname : String) (kwargs : List (String × String)) (timeout : Nat) (exc : Exc)
  | printTrace (exc : Exc)
  | sleep (t : Nat)
deriving DecidableEq, Repr

/-- Possible outcomes of the retry loop.  `stillRunning` means the loop was
cut off by the fuel bound before finishing; `indexError` models an uncaught
`IndexError` from indexing the backoff schedule out of range (that indexing
happens inside the `except` block, so it would propagate). -/
inductive RetryOutcome (G : Type) where
  | ok (v : G)
  | limitExceeded (e : RetryLimitExceeded)
  | indexError (i : Nat)
  | stillRunning (i : Nat)
deriving DecidableEq, Repr

/-- The literal backoff schedule `[1, 2, 5, 10, 15, 20, 25, 25, 25, 50, 50, 100]`
from `src/stats.py` (seconds). -/
def backoffSchedule : List Nat := [1, 2, 5, 10, 15, 20, 25, 25, 25, 50, 50, 100]

/-- The guard `isinstance(exc, (ReadTimeout, ReadTimeoutError, TimeoutError))`
from `src/stats.py`: exception classes for which the traceback print is
suppressed. -/
def suppressTraceback (exc : Exc) : Bool :=
  match exc with
  | .readTimeout => true
  | .readTimeoutError => true
  | .timeoutError => true
  | _ => false

/-- Modelled from the spec: the spec suppresses the traceback when "the
captured error is specifically a network read-timeout".  The network
read-timeout classes are `requests.exceptions.ReadTimeout` and
`urllib3.exceptions.ReadTimeoutError`; the builtin `TimeoutError` is a
generic OS-level timeout, not specifically a network read-timeout.  This
definition exists to be compared with `suppressTraceback`, taken from the
source. -/
def isNetworkReadTimeout (exc : Exc) : Bool :=
  match exc with
  | .readTimeout => true
  | .readTimeoutError => true
  | _ => false

/-- One fuel-counted run of the `while 1` loop of `retry` (`src/stats.py`),
started at attempt counter `i`.  `f n` is what the wrapped callable does on
the invocation performed with attempt counter `n`.  Returns the outcome and
the event trace.  The body mirrors the source: call `f`; on success return;
on an exception, if `i > 11` raise `RetryLimitExceeded(f.__name__, i,
kwargs, exc)`; otherwise read `timeout` from the schedule at index `i`,
increment `i`, print the failure line, print the traceback unless the
exception class is one of the timeout classes, and sleep. -/
def retryFuel {G : Type} (fname : String) (kwargs : List (String × String))
    (f : Nat → Except Exc G) : Nat → Nat → RetryOutcome G × List Event
  | i, 0 => (.stillRunning i, [])
  | i, fuel + 1 =>
    match f i with
    | .ok v => (.ok v, [.call i])
    | .error exc =>
      if i > 11 then
        (.limitExceeded ⟨fname, i, kwargs, exc⟩, [.call i])
      else
        match backoffSchedule.get? i with
        | none => (.indexError i, [.call i])
        | some t =>
          let rest := retryFuel fname kwargs f (i + 1) fuel
          (rest.fst,
            [Event.call i, Event.printFail fname kwargs t exc] ++
              (if suppressTraceback exc then [] else [Event.printTrace exc]) ++
              [Event.sleep t] ++ rest.snd)

/-- `retry(f, **kwargs)` from `src/stats.py`, started at `i = 0`.  Thirteen
units of fuel are provided; `retry_fuel_irrelevant` shows any amount of fuel
beyond that gives the same result, so the bound is not a semantic cutoff. -/
def retry {G : Type} (fname : String) (kwargs : List (String × String))
    (f : Nat → Except Exc G) : RetryOutcome G × List Event :=
  retryFuel fname kwargs f 0 13

/-- The attempt-counter values at which the wrapped callable was invoked. -/
def callIndices (es : List Event) : List Nat :=
  es.filterMap fun e => match e with | .call i => some i | _ => none

/-- The number of invocations of the wrapped callable recorded in a trace. -/
def callCount (es : List Event) : Nat :=
  (callIndices es).length

/-- The sleep durations recorded in a trace, in order. -/
def sleepTimes (es : List Event) : List Nat :=
  es.filterMap fun e => match e with | .sleep t => some t | _ => none

/-- The exceptions whose traceback was printed, in order. -/
def tracePrints (es : List Event) : List Exc :=
  es.filterMap fun e => match e with | .printTrace exc => some exc | _ => none

/-- `true` iff the loop ended by returning the wrapped value or by raising
`RetryLimitExceeded` - the only two exits the source intends. -/
def finished {G : Type} : RetryOutcome G → Bool
  | .ok _ => true
  | .limitExceeded _ => true
  | _ => false

/-- `true` iff the outcome is an uncaught `IndexError` from the schedule
access. -/
def isIndexError {G : Type} : RetryOutcome G → Bool
  | .indexError _ => true
  | _ => false

/-- An operation that fails on every invocation, as `retry` sees it. -/
def alwaysFail : Nat → Except Exc Nat :=
  fun _ => Except.error (Exc.other "API error")

/-- An operation that fails twice with `ValueError` and then returns `42`
(the spec's retry example). -/
def failTwice : Nat → Except Exc Nat :=
  fun n => if n < 2 then Except.error (Exc.valueError "API error") else Except.ok 42

/-- An operation whose single failure, on the first invocation, is the
builtin `TimeoutError`; it then returns `0`. -/
def failTimeoutOnce : Nat → Except Exc Nat :=
  fun n => if n = 0 then Except.error Exc.timeoutError else Except.ok 0

/-!  The opponent-pairing join of `dump_team_eff_json` (`src/dl.py`).

A row of `data["games"]` is modelled with the fields the join reads
(`game_id`, `team_id`, `pts`, `poss`) and the two fields it writes
(`opp_pts`, `opp_poss`, absent in fresh rows, hence `Option`).  The other
projected columns (`team_abbreviation`, dates, ratings) are never read nor
written by the join and are omitted.

The source builds `game_id_index` before the augmentation loop and the loop
then mutates the very dicts the index holds; but the mutation only adds the
`opp_pts`/`opp_poss` keys, which the lookup and the selection of `g2` never
read (`game_id`, `team_id`, `pts`, `poss` are never written).  Grouping the
original rows and mapping each row independently is therefore
observationally equivalent to the in-place pass. -/

/-- One record of `data["games"]`. -/
structure Row where
  game_id : String
  team_id : Int
  pts : Int
  poss : Int
  opp_pts : Option Int := none
  opp_poss : Option Int := none
deriving DecidableEq, Repr

/-- `game_id_index` from `dump_team_eff_json`: a `defaultdict(list)` filled
by one pass appending each row under its `game_id`, so the group of a key
is the rows carrying that key, in input order. -/
def game_id_index (games : List Row) (gid : String) : List Row :=
  games.filter fun g => g.game_id == gid

/-- The diagnostic line printed when a group does not unpack into two rows:
`f"unable to find \x7bg1['game_id']\x7d in index, skipping. No idea why this
is happening. \x7byear\x7d"`. -/
def skipWarning (gid : String) (year : Int) : String :=
  "unable to find " ++ gid ++
    " in index, skipping. No idea why this is happening. " ++ toString year

/-- The body of the augmentation loop of `dump_team_eff_json` for one row
`g1`: unpack `a, b = game_id_index[g1["game_id"]]`; if the unpacking raises
`ValueError` (group size differs from 2), print the warning and leave the
row alone; otherwise `g2 = a if a["team_id"] != g1["team_id"] else b` and
the row gains `opp_pts = g2["pts"]`, `opp_poss = g2["poss"]`.  Returns the
resulting row and the warning, when one is printed. -/
def processRow (idx : String → List Row) (year : Int) (g1 : Row) : Row × Option String :=
  match idx g1.game_id with
  | [a, b] =>
    let g2 := if a.team_id ≠ g1.team_id then a else b
    ({ g1 with opp_pts := some g2.pts, opp_poss := some g2.poss }, none)
  | _ => (g1, some (skipWarning g1.game_id year))

/-- The opponent-attachment pass of `dump_team_eff_json` (`src/dl.py`):
the augmented rows, in input order, together with the warnings printed, in
order.  The JSON projection and serialization around the loop are omitted;
they neither read nor write the opponent fields. -/
def dump_team_eff_json (games : List Row) (year : Int) : List Row × List String :=
  (games.map fun g1 => (processRow (game_id_index games) year g1).fst,
   games.filterMap fun g1 => (processRow (game_id_index games) year g1).snd)

/-- `true` iff every row's group splits into exactly two rows with distinct
team identifiers - the well-formedness invariant the spec states for the
input of the join. -/
def wellFormed (games : List Row) : Bool :=
  games.all fun g =>
    match game_id_index games g.game_id with
    | [a, b] => a.team_id != b.team_id
    | _ => false

/-- The events recorded by one non-terminal failed attempt, as a function of
the exception and the chosen delay. -/
def failBlock (fname : String) (kwargs : List (String × String)) (i t : Nat)
    (exc : Exc) : List Event :=
  [Event.call i, Event.printFail fname kwargs t exc] ++
    (if suppressTraceback exc then [] else [Event.printTrace exc]) ++ [Event.sleep t]

/-- The first row of the spec's worked join example. -/
def rowA : Row := { game_id := "G1", team_id := 1, pts := 100, poss := 90 }

/-- The second row of the spec's worked join example. -/
def rowB : Row := { game_id := "G1", team_id := 2, pts := 95, poss := 88 }

/-- A row sharing both game and team identifier with `rowD`. -/
def rowC : Row := { game_id := "G2", team_id := 7, pts := 100, poss := 90 }

/-- A row sharing both game and team identifier with `rowC`. -/
def rowD : Row := { game_id := "G2", team_id := 7, pts := 95, poss := 88 }

/-! ### Trace bookkeeping lemmas -/

theorem sleepTimes_append (es fs : List Event) :
    sleepTimes (es ++ fs) = sleepTimes es ++ sleepTimes fs := by
  simp [sleepTimes]

theorem callIndices_append (es fs : List Event) :
    callIndices (es ++ fs) = callIndices es ++ callIndices fs := by
  simp [callIndices]

theorem tracePrints_append (es fs : List Event) :
    tracePrints (es ++ fs) = tracePrints es ++ tracePrints fs := by
  simp [tracePrints]

theorem sleepTimes_failBlock (fname : String) (kwargs : List (String × String))
    (i t : Nat) (exc : Exc) :
    sleepTimes (failBlock fname kwargs i t exc) = [t] := by
  cases h : suppressTraceback exc <;> simp [failBlock, sleepTimes, h]

theorem callIndices_failBlock (fname : String) (kwargs : List (String × String))
    (i t : Nat) (exc : Exc) :
    callIndices (failBlock fname kwargs i t exc) = [i] := by
  cases h : suppressTraceback exc <;> simp [failBlock, callIndices, h]

theorem tracePrints_failBlock (fname : String) (kwargs : List (String × String))
    (i t : Nat) (exc : Exc) :
    tracePrints (failBlock fname kwargs i t exc) =
      if suppressTraceback exc then [] else [exc] := by
  cases h : suppressTraceback exc <;> simp [failBlock, tracePrints, h]

/-- Unfolding of one failed, non-terminal loop iteration. -/
theorem retryFuel_fail_step {G : Type} (fname : String)
    (kwargs : List (String × String)) (f : Nat → Except Exc G) (i fuel : Nat)
    (exc : Exc) (hfi : f i = .error exc) (hle : i ≤ 11) (t : Nat)
    (ht : backoffSchedule.get? i = some t) :
    retryFuel fname kwargs f i (fuel + 1) =
      ((retryFuel fname kwargs f (i + 1) fuel).fst,
        failBlock fname kwargs i t exc ++ (retryFuel fname kwargs f (i + 1) fuel).snd) := by
  simp only [retryFuel, hfi, ht, failBlock]
  rw [if_neg (by omega)]

/-- The backoff schedule has twelve entries. -/
theorem backoffSchedule_length : backoffSchedule.length = 12 := rfl

theorem backoffSchedule_get? (i : Nat) (h : i ≤ 11) :
    backoffSchedule.get? i = some (backoffSchedule.get ⟨i, by rw [backoffSchedule_length]; omega⟩) :=
  List.get?_eq_get _

/-! ### Behaviour of the retry loop -/

/-- If, starting from attempt counter `i`, the callable fails `k` times in a
row and then succeeds, and no failure reaches the cap, the loop returns the
success value and sleeps through `k` consecutive schedule entries starting
at index `i`. -/
theorem retryFuel_ok {G : Type} (fname : String) (kwargs : List (String × String))
    (f : Nat → Except Exc G) (v : G) :
    ∀ k i fuel : Nat, k < fuel → i + k ≤ 12 →
      (∀ n, n < k → (f (i + n)).isOk = false) → f (i + k) = .ok v →
      (retryFuel fname kwargs f i fuel).fst = .ok v ∧
      sleepTimes (retryFuel fname kwargs f i fuel).snd = (backoffSchedule.drop i).take k := by
  intro k
  induction k with
  | zero =>
    intro i fuel hfuel _ _ hok
    obtain ⟨m, rfl⟩ : ∃ m, fuel = m + 1 := ⟨fuel - 1, by omega⟩
    rw [Nat.add_zero] at hok
    simp [retryFuel, hok, sleepTimes]
  | succ k ih =>
    intro i fuel hfuel hle hfail hok
    obtain ⟨m, rfl⟩ : ∃ m, fuel = m + 1 := ⟨fuel - 1, by omega⟩
    have h0 := hfail 0 (by omega)
    rw [Nat.add_zero] at h0
    obtain ⟨exc, hfi⟩ : ∃ exc, f i = .error exc := by
      cases hf : f i with
      | ok w => rw [hf] at h0; simp [Except.isOk, Except.toBool] at h0
      | error e => exact ⟨e, rfl⟩
    have hi11 : i ≤ 11 := by omega
    have hilt : i < backoffSchedule.length := by rw [backoffSchedule_length]; omega
    rw [retryFuel_fail_step fname kwargs f i m exc hfi hi11 _ (backoffSchedule_get? i hi11)]
    have ihr := ih (i + 1) m (by omega) (by omega)
      (fun n hn => by
        have h := hfail (n + 1) (by omega)
        rwa [show i + (n + 1) = i + 1 + n by omega] at h)
      (by rw [show i + 1 + k = i + (k + 1) by omega]; exact hok)
    refine ⟨ihr.1, ?_⟩
    rw [sleepTimes_append, sleepTimes_failBlock, ihr.2,
      List.drop_eq_getElem_cons hilt, List.take_succ_cons]
    simp [List.get_eq_getElem]

/-- If the callable fails at attempt counter 12 and on every earlier attempt
from `i` on, the loop started at `i` with matching fuel ends in
`RetryLimitExceeded` with `attempts = 12`, invokes the callable at every
counter value from `i` through 12, and sleeps through the schedule entries
from index `i` through 11. -/
theorem retryFuel_fail {G : Type} (fname : String) (kwargs : List (String × String))
    (f : Nat → Except Exc G) (e12 : Exc) (h12 : f 12 = .error e12) :
    ∀ fuel i : Nat, fuel + i = 13 → i ≤ 12 →
      (∀ n, i ≤ n → n < 12 → (f n).isOk = false) →
      (retryFuel fname kwargs f i fuel).fst = .limitExceeded ⟨fname, 12, kwargs, e12⟩ ∧
      callIndices (retryFuel fname kwargs f i fuel).snd = List.range' i fuel ∧
      sleepTimes (retryFuel fname kwargs f i fuel).snd = backoffSchedule.drop i := by
  intro fuel
  induction fuel with
  | zero => intro i h13 hi _; omega
  | succ m ih =>
    intro i h13 hi hfail
    by_cases h12i : i = 12
    · subst h12i
      have hm : m = 0 := by omega
      subst hm
      have hstep : retryFuel fname kwargs f 12 1 =
          (.limitExceeded ⟨fname, 12, kwargs, e12⟩, [Event.call 12]) := by
        simp only [retryFuel, h12]
        rw [if_pos (by omega)]
      rw [hstep]
      refine ⟨rfl, ?_, ?_⟩ <;>
        simp [callIndices, sleepTimes, backoffSchedule, List.range']
    · have hi11 : i ≤ 11 := by omega
      have h0 := hfail i (by omega) (by omega)
      obtain ⟨exc, hfi⟩ : ∃ exc, f i = .error exc := by
        cases hf : f i with
        | ok w => rw [hf] at h0; simp [Except.isOk, Except.toBool] at h0
        | error e => exact ⟨e, rfl⟩
      have hilt : i < backoffSchedule.length := by rw [backoffSchedule_length]; omega
      rw [retryFuel_fail_step fname kwargs f i m exc hfi hi11 _ (backoffSchedule_get? i hi11)]
      have ihr := ih (i + 1) (by omega) (by omega)
        (fun n hn hn' => hfail n (by omega) hn')
      refine ⟨ihr.1, ?_, ?_⟩
      · rw [callIndices_append, callIndices_failBlock, List.range'_succ, ihr.2.1]
        simp
      · rw [sleepTimes_append, sleepTimes_failBlock, ihr.2.2,
          List.drop_eq_getElem_cons hilt]
        simp [List.get_eq_getElem]

/-- The schedule access inside the loop never goes out of range: the loop
never produces the `indexError` outcome, whatever the callable, the starting
counter and the fuel. -/
theorem retryFuel_no_indexError {G : Type} (fname : String)
    (kwargs : List (String × String)) (f : Nat → Except Exc G) :
    ∀ fuel i : Nat, isIndexError (retryFuel fname kwargs f i fuel).fst = false := by
  intro fuel
  induction fuel with
  | zero => intro i; rfl
  | succ m ih =>
    intro i
    cases hf : f i with
    | ok v => simp [retryFuel, hf, isIndexError]
    | error exc =>
      by_cases h11 : i > 11
      · simp [retryFuel, hf, if_pos h11, isIndexError]
      · simp only [retryFuel, hf]
        rw [if_neg h11, backoffSchedule_get? i (by omega)]
        exact ih (i + 1)

/-- With fuel at least `13 - i` (and at least one unit), the loop started at
`i` ends by returning the value or by raising `RetryLimitExceeded`. -/
theorem retryFuel_finished {G : Type} (fname : String)
    (kwargs : List (String × String)) (f : Nat → Except Exc G) :
    ∀ fuel i : Nat, 13 ≤ fuel + i → 1 ≤ fuel →
      finished (retryFuel fname kwargs f i fuel).fst = true := by
  intro fuel
  induction fuel with
  | zero => intro i _ h; omega
  | succ m ih =>
    intro i h13 _
    cases hf : f i with
    | ok v => simp [retryFuel, hf, finished]
    | error exc =>
      by_cases h11 : i > 11
      · simp [retryFuel, hf, if_pos h11, finished]
      · simp only [retryFuel, hf]
        rw [if_neg h11, backoffSchedule_get? i (by omega)]
        exact ih (i + 1) (by omega) (by omega)

/-- Once the loop finishes within some fuel bound, giving it more fuel
changes nothing: the fuel bound is not a semantic cutoff. -/
theorem retryFuel_mono {G : Type} (fname : String)
    (kwargs : List (String × String)) (f : Nat → Except Exc G) :
    ∀ fuel i : Nat, finished (retryFuel fname kwargs f i fuel).fst = true →
      ∀ fuel' : Nat, fuel ≤ fuel' →
        retryFuel fname kwargs f i fuel' = retryFuel fname kwargs f i fuel := by
  intro fuel
  induction fuel with
  | zero => intro i h; simp [retryFuel, finished] at h
  | succ m ih =>
    intro i h fuel' hle
    obtain ⟨m', rfl⟩ : ∃ m', fuel' = m' + 1 := ⟨fuel' - 1, by omega⟩
    cases hf : f i with
    | ok v => simp [retryFuel, hf]
    | error exc =>
      by_cases h11 : i > 11
      · simp [retryFuel, hf, if_pos h11]
      · simp only [retryFuel, hf] at h ⊢
        rw [if_neg h11, backoffSchedule_get? i (by omega)] at h ⊢
        have hrec := ih (i + 1) h m' (by omega)
        simp only [hrec]
        rw [if_neg h11]

/-- Started at any counter at most 12, whenever the loop ends in
`RetryLimitExceeded` the error carries the wrapped callable's name, the
keyword arguments, an attempt counter of 12, and the exception raised by
the final (thirteenth) invocation. -/
theorem retryFuel_limitExceeded_fields {G : Type} (fname : String)
    (kwargs : List (String × String)) (f : Nat → Except Exc G) :
    ∀ fuel i : Nat, i ≤ 12 → ∀ e : RetryLimitExceeded,
      (retryFuel fname kwargs f i fuel).fst = .limitExceeded e →
      e.func_name = fname ∧ e.kwargs = kwargs ∧ e.attempts = 12 ∧
        f 12 = .error e.last_exception := by
  intro fuel
  induction fuel with
  | zero => intro i _ e h; simp [retryFuel] at h
  | succ m ih =>
    intro i hi e h
    cases hf : f i with
    | ok v => simp [retryFuel, hf] at h
    | error exc =>
      by_cases h11 : i > 11
      · simp only [retryFuel, hf] at h
        rw [if_pos h11] at h
        simp only [RetryOutcome.limitExceeded.injEq] at h
        have h12 : i = 12 := by omega
        subst h12
        rw [← h]
        exact ⟨rfl, rfl, rfl, hf⟩
      · simp only [retryFuel, hf] at h
        rw [if_neg h11, backoffSchedule_get? i (by omega)] at h
        exact ih (i + 1) (by omega) e h

/-- No traceback is ever printed for an exception class in the suppressed
timeout classes, on any attempt. -/
theorem printTrace_suppressed {G : Type} (fname : String)
    (kwargs : List (String × String)) (f : Nat → Except Exc G) :
    ∀ fuel i : Nat, ∀ exc : Exc, suppressTraceback exc = true →
      Event.printTrace exc ∉ (retryFuel fname kwargs f i fuel).snd := by
  intro fuel
  induction fuel with
  | zero => intro i exc _ h; simp [retryFuel] at h
  | succ m ih =>
    intro i exc hsup h
    cases hf : f i with
    | ok v => simp [retryFuel, hf] at h
    | error exc' =>
      by_cases h11 : i > 11
      · simp [retryFuel, hf, if_pos h11] at h
      · rw [retryFuel_fail_step fname kwargs f i m exc' hf (by omega) _
          (backoffSchedule_get? i (by omega))] at h
        by_cases hs : suppressTraceback exc'
        · simp [failBlock, hs] at h
          exact ih (i + 1) exc hsup h
        · simp [failBlock, hs] at h
          rcases h with h | h
          · rw [h] at hsup
            rw [hsup] at hs
            exact hs rfl
          · exact ih (i + 1) exc hsup h

/-- Every non-terminal failed attempt whose exception class is outside the
suppressed timeout classes prints the traceback and then sleeps: the trace
contains the traceback print immediately followed by that attempt's sleep.
(`Event.call (n + 1)` in the trace says the invocation at counter `n` was a
failure that was retried, i.e. not the terminal one.) -/
theorem printTrace_of_unsuppressed_fail {G : Type} (fname : String)
    (kwargs : List (String × String)) (f : Nat → Except Exc G) (n : Nat)
    (exc : Exc) (hfn : f n = .error exc) (hsup : suppressTraceback exc = false) :
    ∀ fuel i : Nat, i ≤ n →
      Event.call (n + 1) ∈ (retryFuel fname kwargs f i fuel).snd →
      ∃ t, backoffSchedule.get? n = some t ∧
        List.IsInfix [Event.printTrace exc, Event.sleep t]
          (retryFuel fname kwargs f i fuel).snd := by
  intro fuel
  induction fuel with
  | zero => intro i _ h; simp [retryFuel] at h
  | succ m ih =>
    intro i hin h
    cases hf : f i with
    | ok v =>
      simp [retryFuel, hf] at h
      omega
    | error exc' =>
      by_cases h11 : i > 11
      · simp [retryFuel, hf, if_pos h11] at h
        omega
      · obtain ⟨t, hget⟩ : ∃ t, backoffSchedule.get? i = some t :=
          ⟨_, backoffSchedule_get? i (by omega)⟩
        rw [retryFuel_fail_step fname kwargs f i m exc' hf (by omega) t hget] at h ⊢
        by_cases hi : i = n
        · subst hi
          rw [hfn] at hf
          injection hf with hf
          subst hf
          refine ⟨t, hget, ?_⟩
          exact ⟨[Event.call i, Event.printFail fname kwargs t exc],
            (retryFuel fname kwargs f (i + 1) m).snd, by simp [failBlock, hsup]⟩
        · have hmem : Event.call (n + 1) ∈ (retryFuel fname kwargs f (i + 1) m).snd := by
            rcases List.mem_append.mp h with h' | h'
            · exfalso
              by_cases hs : suppressTraceback exc' <;> simp [failBlock, hs] at h' <;> omega
            · exact h'
          obtain ⟨t', hget', s, u, hsu⟩ := ih (i + 1) (by omega) hmem
          refine ⟨t', hget', failBlock fname kwargs i t exc' ++ s, u, ?_⟩
          simp only [← hsu, List.append_assoc]

/-! ### Behaviour of the opponent-pairing join -/

theorem mem_game_id_index (games : List Row) (gid : String) (r : Row) :
    r ∈ game_id_index games gid ↔ r ∈ games ∧ r.game_id = gid := by
  simp [game_id_index, List.mem_filter]

theorem game_id_of_mem_index {games : List Row} {gid : String} {r : Row}
    (h : r ∈ game_id_index games gid) : r.game_id = gid :=
  ((mem_game_id_index games gid r).mp h).2

/-- The augmented list is the row-wise image of the input list. -/
theorem dump_fst_get? (games : List Row) (year : Int) (j : Nat) :
    (dump_team_eff_json games year).fst.get? j =
      (games.get? j).map fun g => (processRow (game_id_index games) year g).fst := by
  simp [dump_team_eff_json, List.get?_eq_getElem?, List.getElem?_map]

/-- Processing the first row of a two-row group attaches the second row's
points and possessions (the `a if a["team_id"] != g1["team_id"] else b`
selection picks `b` because `a` is `g1` itself). -/
theorem processRow_pair_first (games : List Row) (year : Int) (gid : String)
    (a b : Row) (hg : game_id_index games gid = [a, b]) :
    processRow (game_id_index games) year a =
      ({ a with opp_pts := some b.pts, opp_poss := some b.poss }, none) := by
  have ha : a.game_id = gid := game_id_of_mem_index (by rw [hg]; simp)
  rw [processRow, ha, hg]
  simp

/-- Processing the second row of a two-row group whose team identifiers
differ attaches the first row's points and possessions. -/
theorem processRow_pair_second (games : List Row) (year : Int) (gid : String)
    (a b : Row) (hg : game_id_index games gid = [a, b])
    (hne : a.team_id ≠ b.team_id) :
    processRow (game_id_index games) year b =
      ({ b with opp_pts := some a.pts, opp_poss := some a.poss }, none) := by
  have hb : b.game_id = gid := game_id_of_mem_index (by rw [hg]; simp)
  rw [processRow, hb, hg]
  simp [hne]

/-- Processing the second row of a two-row group whose team identifiers are
equal attaches the second row's own points and possessions: the selection
`a if a["team_id"] != g1["team_id"] else b` falls through to `b`. -/
theorem processRow_pair_second_eqid (games : List Row) (year : Int) (gid : String)
    (a b : Row) (hg : game_id_index games gid = [a, b])
    (heq : a.team_id = b.team_id) :
    processRow (game_id_index games) year b =
      ({ b with opp_pts := some b.pts, opp_poss := some b.poss }, none) := by
  have hb : b.game_id = gid := game_id_of_mem_index (by rw [hg]; simp)
  rw [processRow, hb, hg]
  simp [heq]

/-- A row whose group does not have exactly two members is passed through
unmodified, with the warning as the only effect (the `ValueError` from the
unpacking is caught). -/
theorem processRow_skip (games : List Row) (year : Int) (g : Row)
    (h2 : (game_id_index games g.game_id).length ≠ 2) :
    processRow (game_id_index games) year g = (g, some (skipWarning g.game_id year)) := by
  rw [processRow]
  rcases hidx : game_id_index games g.game_id with _ | ⟨x, _ | ⟨y, _ | ⟨z, l⟩⟩⟩
  · rfl
  · rfl
  · rw [hidx] at h2; simp at h2
  · rfl

/-- When some group of the input is not a pair, the corresponding warning,
naming the game identifier and the year, is among the printed warnings. -/
theorem skipWarning_mem (games : List Row) (year : Int) (gid : String)
    (hne : game_id_index games gid ≠ [])
    (h2 : (game_id_index games gid).length ≠ 2) :
    skipWarning gid year ∈ (dump_team_eff_json games year).snd := by
  obtain ⟨r, hr⟩ : ∃ r, r ∈ game_id_index games gid := by
    cases h : game_id_index games gid with
    | nil => exact absurd h hne
    | cons x l => exact ⟨x, h ▸ List.mem_cons_self x l⟩
  have hrg : r.game_id = gid := game_id_of_mem_index hr
  have hrmem : r ∈ games := ((mem_game_id_index games gid r).mp hr).1
  refine List.mem_filterMap.mpr ⟨r, hrmem, ?_⟩
  rw [processRow_skip games year r (by rw [hrg]; exact h2), hrg]

/-- The join never writes the four fields it reads. -/
theorem processRow_fst_fields (idx : String → List Row) (year : Int) (g : Row) :
    (processRow idx year g).fst.game_id = g.game_id ∧
    (processRow idx year g).fst.team_id = g.team_id ∧
    (processRow idx year g).fst.pts = g.pts ∧
    (processRow idx year g).fst.poss = g.poss := by
  rw [processRow]
  rcases idx g.game_id with _ | ⟨x, _ | ⟨y, _ | ⟨z, l⟩⟩⟩ <;> simp

/-- Grouping the augmented rows gives the groups of the input rows, row-wise
augmented: augmentation changes no `game_id`. -/
theorem game_id_index_dump (games : List Row) (year : Int) (gid : String) :
    game_id_index ((dump_team_eff_json games year).fst) gid =
      (game_id_index games gid).map
        fun g => (processRow (game_id_index games) year g).fst := by
  show (games.map fun g => (processRow (game_id_index games) year g).fst).filter
      (fun r => r.game_id == gid) =
    (games.filter fun r => r.game_id == gid).map
      fun g => (processRow (game_id_index games) year g).fst
  rw [List.filter_map]
  congr 1
  apply List.filter_congr
  intro g _
  simp only [Function.comp]
  rw [(processRow_fst_fields (game_id_index games) year g).1]

/-- Processing a row whose group is a pair, written with the selection
inlined (any index function). -/
theorem processRow_pair (idx : String → List Row) (year : Int) (g a b : Row)
    (hg : idx g.game_id = [a, b]) :
    processRow idx year g =
      ({ g with opp_pts := some (if a.team_id ≠ g.team_id then a else b).pts,
                opp_poss := some (if a.team_id ≠ g.team_id then a else b).poss }, none) := by
  rw [processRow, hg]

/-- Processing a row whose group is not a pair (any index function). -/
theorem processRow_not_pair (idx : String → List Row) (year : Int) (g : Row)
    (h2 : (idx g.game_id).length ≠ 2) :
    processRow idx year g = (g, some (skipWarning g.game_id year)) := by
  rw [processRow]
  rcases hidx : idx g.game_id with _ | ⟨x, _ | ⟨y, _ | ⟨z, l⟩⟩⟩
  · rfl
  · rfl
  · rw [hidx] at h2; simp at h2
  · rfl

/-- Re-processing an augmented row against the index of the augmented rows
reproduces that row exactly, with the same warning: the opponent values the
second pass computes come from the untouched `pts`/`poss` fields. -/
theorem processRow_idem (games : List Row) (year : Int) (g : Row) :
    processRow (game_id_index ((dump_team_eff_json games year).fst)) year
        ((processRow (game_id_index games) year g).fst) =
      processRow (game_id_index games) year g := by
  by_cases h2 : (game_id_index games g.game_id).length = 2
  · obtain ⟨a, b, hg⟩ : ∃ a b, game_id_index games g.game_id = [a, b] := by
      rcases hidx : game_id_index games g.game_id with _ | ⟨a, _ | ⟨b, _ | ⟨c, l⟩⟩⟩
      · rw [hidx] at h2; simp at h2
      · rw [hidx] at h2; simp at h2
      · exact ⟨a, b, rfl⟩
      · rw [hidx] at h2; simp at h2
    have hidx' : game_id_index ((dump_team_eff_json games year).fst) g.game_id =
        [(processRow (game_id_index games) year a).fst,
          (processRow (game_id_index games) year b).fst] := by
      rw [game_id_index_dump, hg]
      rfl
    have hfa := processRow_fst_fields (game_id_index games) year a
    have hfb := processRow_fst_fields (game_id_index games) year b
    rw [processRow_pair (game_id_index ((dump_team_eff_json games year).fst)) year
      ((processRow (game_id_index games) year g).fst)
      ((processRow (game_id_index games) year a).fst)
      ((processRow (game_id_index games) year b).fst)
      (by rw [(processRow_fst_fields (game_id_index games) year g).1]; exact hidx')]
    rw [processRow_pair (game_id_index games) year g a b hg]
    by_cases hc : a.team_id ≠ g.team_id <;>
      simp [hfa.2.1, hfa.2.2.1, hfa.2.2.2, hfb.2.1, hfb.2.2.1, hfb.2.2.2, hc]
  · rw [processRow_not_pair (game_id_index games) year g h2]
    exact processRow_not_pair _ year g (by rw [game_id_index_dump]; simpa using h2)

/-- Running the join a second time on its own output changes nothing:
neither the rows nor the warnings. -/
theorem dump_team_eff_json_idem (games : List Row) (year : Int) :
    dump_team_eff_json ((dump_team_eff_json games year).fst) year =
      dump_team_eff_json games year := by
  have hrow : ∀ g : Row,
      processRow (game_id_index ((dump_team_eff_json games year).fst)) year
          ((processRow (game_id_index games) year g).fst) =
        processRow (game_id_index games) year g := processRow_idem games year
  show (_, _) = (_, _)
  refine Prod.ext ?_ ?_
  · show ((games.map fun g => (processRow (game_id_index games) year g).fst).map
        fun g =>
          (processRow (game_id_index ((dump_team_eff_json games year).fst)) year g).fst) =
      games.map fun g => (processRow (game_id_index games) year g).fst
    rw [List.map_map]
    exact List.map_congr_left fun g _ => congrArg Prod.fst (hrow g)
  · show ((games.map fun g => (processRow (game_id_index games) year g).fst).filterMap
        fun g =>
          (processRow (game_id_index ((dump_team_eff_json games year).fst)) year g).snd) =
      games.filterMap fun g => (processRow (game_id_index games) year g).snd
    rw [List.filterMap_map]
    exact List.filterMap_congr fun g _ => congrArg Prod.snd (hrow g)

/-! ### The claims -/

/-- C1, counterexample: on the always-failing operation, `retry` invokes the
operation 13 times - a call with attempt counter 12 (the 13th attempt) does
happen - refuting "raises after exactly 12 attempts (indices 0 through 11)
and never invokes the operation a 13th time". -/
theorem C1_counterexample :
    callCount (retry "op" [] alwaysFail).snd = 13 ∧
      Event.call 12 ∈ (retry "op" [] alwaysFail).snd ∧
      (retry "op" [] alwaysFail).fst =
        RetryOutcome.limitExceeded ⟨"op", 12, [], Exc.other "API error"⟩ := by
  refine ⟨by decide, by decide, by decide⟩

/-- C1, amended: for every operation that fails on 13 or more consecutive
invocations, `retry` raises `RetryLimitExceeded` after exactly 13 attempts
(attempt counters 0 through 12), sleeping 12 times through the whole backoff
schedule, and never invokes the operation a 14th time. -/
theorem C1_thirteen_attempts {G : Type} (fname : String)
    (kwargs : List (String × String)) (f : Nat → Except Exc G) (e : Exc)
    (h12 : f 12 = Except.error e)
    (hf : ∀ n, n < 12 → (f n).isOk = false) :
    (retry fname kwargs f).fst = RetryOutcome.limitExceeded ⟨fname, 12, kwargs, e⟩ ∧
      callIndices (retry fname kwargs f).snd = List.range 13 ∧
      sleepTimes (retry fname kwargs f).snd = backoffSchedule := by
  have h := retryFuel_fail fname kwargs f e h12 13 0 (by omega) (by omega)
    (fun n _ hn => hf n hn)
  refine ⟨h.1, ?_, ?_⟩
  · rw [List.range_eq_range']
    exact h.2.1
  · simpa using h.2.2

/-- C1, witness for the amended theorem at the always-failing operation. -/
theorem C1_thirteen_attempts_witness :
    (retry "op" [] alwaysFail).fst =
        RetryOutcome.limitExceeded ⟨"op", 12, [], Exc.other "API error"⟩ ∧
      callIndices (retry "op" [] alwaysFail).snd = List.range 13 ∧
      sleepTimes (retry "op" [] alwaysFail).snd = backoffSchedule :=
  C1_thirteen_attempts "op" [] alwaysFail (Exc.other "API error") rfl
    (fun _ _ => rfl)

/-- C2: in a two-row game group with differing team identifiers, the join
gives each row the other row's `pts` and `poss` as its opponent fields,
symmetrically. -/
theorem C2_opponent_symmetric (games : List Row) (year : Int) (gid : String)
    (a b : Row) (hg : game_id_index games gid = [a, b])
    (hne : a.team_id ≠ b.team_id) :
    ∀ j : Nat,
      (games.get? j = some a →
        (dump_team_eff_json games year).fst.get? j =
          some { a with opp_pts := some b.pts, opp_poss := some b.poss }) ∧
      (games.get? j = some b →
        (dump_team_eff_json games year).fst.get? j =
          some { b with opp_pts := some a.pts, opp_poss := some a.poss }) := by
  intro j
  constructor
  · intro hj
    rw [dump_fst_get?, hj]
    simp [processRow_pair_first games year gid a b hg]
  · intro hj
    rw [dump_fst_get?, hj]
    simp [processRow_pair_second games year gid a b hg hne]

/-- C2, witness at the spec's worked example: the row for team 1 gains
`opp_pts = 95, opp_poss = 88` and the row for team 2 gains
`opp_pts = 100, opp_poss = 90`. -/
theorem C2_opponent_symmetric_witness :
    (dump_team_eff_json [rowA, rowB] 2024).fst.get? 0 =
        some { rowA with opp_pts := some 95, opp_poss := some 88 } ∧
      (dump_team_eff_json [rowA, rowB] 2024).fst.get? 1 =
        some { rowB with opp_pts := some 100, opp_poss := some 90 } := by
  constructor
  · exact (C2_opponent_symmetric [rowA, rowB] 2024 "G1" rowA rowB (by decide)
      (by decide) 0).1 rfl
  · exact (C2_opponent_symmetric [rowA, rowB] 2024 "G1" rowA rowB (by decide)
      (by decide) 1).2 rfl

/-- C3: rows of a game group with 1 or 3+ members pass through unmodified;
the warning - a string carrying the game identifier and the year - is
printed; nothing is raised (the pass is total) and every row is still
processed, so the output keeps one row per input row. -/
theorem C3_malformed_group (games : List Row) (year : Int) (gid : String)
    (hsz : (game_id_index games gid).length = 1 ∨
      3 ≤ (game_id_index games gid).length) :
    (dump_team_eff_json games year).fst.length = games.length ∧
      (∀ j r, games.get? j = some r → r.game_id = gid →
        (dump_team_eff_json games year).fst.get? j = some r) ∧
      skipWarning gid year ∈ (dump_team_eff_json games year).snd ∧
      ∃ s1 s2, skipWarning gid year = s1 ++ gid ++ s2 ++ toString year := by
  have h2 : (game_id_index games gid).length ≠ 2 := by omega
  refine ⟨by simp [dump_team_eff_json], ?_, ?_, ?_⟩
  · intro j r hj hr
    rw [dump_fst_get?, hj]
    simp [processRow_not_pair (game_id_index games) year r (by rw [hr]; exact h2)]
  · refine skipWarning_mem games year gid ?_ h2
    intro h
    rw [h] at hsz
    simp at hsz
  · exact ⟨"unable to find ",
      " in index, skipping. No idea why this is happening. ", rfl⟩

/-- C3, witness at a one-row group. -/
theorem C3_malformed_group_witness :
    (dump_team_eff_json [rowA] 2024).fst.length = 1 ∧
      (dump_team_eff_json [rowA] 2024).fst.get? 0 = some rowA ∧
      skipWarning "G1" 2024 ∈ (dump_team_eff_json [rowA] 2024).snd := by
  have h := C3_malformed_group [rowA] 2024 "G1" (by decide)
  exact ⟨h.1, h.2.1 0 rowA rfl rfl, h.2.2.1⟩

/-- C4: an operation failing exactly k (for k at most 11) times and then
succeeding makes `retry` return the success value, sleeping exactly k times
with the i-th sleep lasting `backoffSchedule[i]`. -/
theorem C4_success_after_k_failures {G : Type} (fname : String)
    (kwargs : List (String × String)) (f : Nat → Except Exc G) (k : Nat) (v : G)
    (hk : k ≤ 11) (hf : ∀ n, n < k → (f n).isOk = false)
    (hs : f k = Except.ok v) :
    (retry fname kwargs f).fst = RetryOutcome.ok v ∧
      sleepTimes (retry fname kwargs f).snd = backoffSchedule.take k ∧
      (sleepTimes (retry fname kwargs f).snd).length = k := by
  have h := retryFuel_ok fname kwargs f v k 0 13 (by omega) (by omega)
    (fun n hn => by simpa using hf n hn) (by simpa using hs)
  refine ⟨h.1, by simpa using h.2, ?_⟩
  show (sleepTimes (retryFuel fname kwargs f 0 13).snd).length = k
  rw [h.2, List.drop_zero, List.length_take, backoffSchedule_length]
  omega

/-- C4, witness at the spec's example: two `ValueError` failures then `42`;
the result is `42` and sleep is called with 1 and then 2. -/
theorem C4_success_after_k_failures_witness :
    (retry "f" [] failTwice).fst = RetryOutcome.ok 42 ∧
      sleepTimes (retry "f" [] failTwice).snd = backoffSchedule.take 2 ∧
      (sleepTimes (retry "f" [] failTwice).snd).length = 2 :=
  C4_success_after_k_failures "f" [] failTwice 2 42 (by omega) (by decide) rfl

/-- C5, counterexample: the builtin `TimeoutError` is not specifically a
network read-timeout, yet on the run whose first invocation fails with it
the failure is retried (the second invocation happens) and no traceback is
printed - refuting "for every other exception type the full stack trace is
printed". -/
theorem C5_counterexample :
    isNetworkReadTimeout Exc.timeoutError = false ∧
      failTimeoutOnce 0 = Except.error Exc.timeoutError ∧
      Event.call 1 ∈ (retry "f" [] failTimeoutOnce).snd ∧
      tracePrints (retry "f" [] failTimeoutOnce).snd = [] := by
  refine ⟨rfl, rfl, by decide, by decide⟩

/-- C5, amended: the traceback is suppressed exactly for the three classes
`ReadTimeout`, `ReadTimeoutError` and builtin `TimeoutError` (the last not
being specifically a network read-timeout): for those classes no traceback
is ever printed, and for every other class each non-terminal failed attempt
prints the traceback and then sleeps. -/
theorem C5_traceback_policy {G : Type} (fname : String)
    (kwargs : List (String × String)) (f : Nat → Except Exc G) :
    (∀ exc, isNetworkReadTimeout exc = true → suppressTraceback exc = true) ∧
      suppressTraceback Exc.timeoutError = true ∧
      isNetworkReadTimeout Exc.timeoutError = false ∧
      (∀ exc, suppressTraceback exc = true →
        Event.printTrace exc ∉ (retry fname kwargs f).snd) ∧
      (∀ n exc, f n = Except.error exc → suppressTraceback exc = false →
        Event.call (n + 1) ∈ (retry fname kwargs f).snd →
        ∃ t, backoffSchedule.get? n = some t ∧
          List.IsInfix [Event.printTrace exc, Event.sleep t]
            (retry fname kwargs f).snd) := by
  refine ⟨?_, rfl, rfl, ?_, ?_⟩
  · intro exc h
    cases exc <;> first | rfl | exact h
  · intro exc h
    exact printTrace_suppressed fname kwargs f 13 0 exc h
  · intro n exc hfn hsup hcall
    exact printTrace_of_unsuppressed_fail fname kwargs f n exc hfn hsup 13 0
      (by omega) hcall

/-- C5, witness for the amended theorem: a suppressed `TimeoutError` leaves
no traceback print; an unsuppressed `ValueError` failure leaves a traceback
print followed by the one-second sleep. -/
theorem C5_traceback_policy_witness :
    Event.printTrace Exc.timeoutError ∉ (retry "f" [] failTimeoutOnce).snd ∧
      ∃ t, backoffSchedule.get? 0 = some t ∧
        List.IsInfix [Event.printTrace (Exc.valueError "API error"), Event.sleep t]
          (retry "f" [] failTwice).snd := by
  constructor
  · exact (C5_traceback_policy "f" [] failTimeoutOnce).2.2.2.1 Exc.timeoutError rfl
  · exact (C5_traceback_policy "f" [] failTwice).2.2.2.2 0
      (Exc.valueError "API error") rfl rfl (by decide)

/-- C6: whenever `retry` fails permanently, the raised error is a
`RetryLimitExceeded` carrying the operation's name, the attempt counter, the
keyword arguments and the last underlying exception (the one raised by the
final invocation), and success and that error are the only outcomes `retry`
ever lets reach its caller. -/
theorem C6_limit_error_payload {G : Type} (fname : String)
    (kwargs : List (String × String)) (f : Nat → Except Exc G) :
    finished (retry fname kwargs f).fst = true ∧
      ∀ e : RetryLimitExceeded,
        (retry fname kwargs f).fst = RetryOutcome.limitExceeded e →
        e.func_name = fname ∧ e.kwargs = kwargs ∧ e.attempts = 12 ∧
          f 12 = Except.error e.last_exception :=
  ⟨retryFuel_finished fname kwargs f 13 0 (by omega) (by omega),
    fun e he => retryFuel_limitExceeded_fields fname kwargs f 13 0 (by omega) e he⟩

/-- C6, witness at the always-failing operation. -/
theorem C6_limit_error_payload_witness :
    finished (retry "op" [] alwaysFail).fst = true ∧
      (RetryLimitExceeded.mk "op" 12 [] (Exc.other "API error")).func_name = "op" ∧
      (RetryLimitExceeded.mk "op" 12 [] (Exc.other "API error")).kwargs =
        ([] : List (String × String)) ∧
      (RetryLimitExceeded.mk "op" 12 [] (Exc.other "API error")).attempts = 12 ∧
      alwaysFail 12 =
        Except.error
          (RetryLimitExceeded.mk "op" 12 [] (Exc.other "API error")).last_exception := by
  refine ⟨(C6_limit_error_payload "op" [] alwaysFail).1, ?_⟩
  exact (C6_limit_error_payload "op" [] alwaysFail).2
    (RetryLimitExceeded.mk "op" 12 [] (Exc.other "API error")) (by decide)

/-- C7: re-running the join on the already-augmented rows of a well-formed
input gives exactly the same rows, hence the same opponent values for every
row. -/
theorem C7_idempotent (games : List Row) (year : Int)
    (_hwf : wellFormed games = true) :
    (dump_team_eff_json ((dump_team_eff_json games year).fst) year).fst =
      (dump_team_eff_json games year).fst :=
  congrArg Prod.fst (dump_team_eff_json_idem games year)

/-- C7, witness at the spec's worked example. -/
theorem C7_idempotent_witness :
    wellFormed [rowA, rowB] = true ∧
      (dump_team_eff_json ((dump_team_eff_json [rowA, rowB] 2024).fst) 2024).fst =
        (dump_team_eff_json [rowA, rowB] 2024).fst :=
  ⟨by decide, C7_idempotent [rowA, rowB] 2024 (by decide)⟩

/-- C8: the backoff schedule has 12 entries and they cover every index the
loop ever uses: the schedule access never fails, for any operation, any
starting counter and any fuel - there is no reachable `IndexError`
outcome. -/
theorem C8_schedule_covers {G : Type} (fname : String)
    (kwargs : List (String × String)) (f : Nat → Except Exc G) :
    backoffSchedule.length = 12 ∧
      isIndexError (retry fname kwargs f).fst = false ∧
      ∀ fuel i : Nat, isIndexError (retryFuel fname kwargs f i fuel).fst = false :=
  ⟨rfl, retryFuel_no_indexError fname kwargs f 13 0,
    fun fuel i => retryFuel_no_indexError fname kwargs f fuel i⟩

/-- C9: every run of `retry` ends by returning the wrapped value or raising
`RetryLimitExceeded`; the loop always finishes within the fuel `retry`
allots and extra fuel changes nothing, so the trailing
`raise Exception("this should never happen")` is never reached. -/
theorem C9_terminates {G : Type} (fname : String)
    (kwargs : List (String × String)) (f : Nat → Except Exc G) :
    finished (retry fname kwargs f).fst = true ∧
      ∀ fuel : Nat, 13 ≤ fuel →
        retryFuel fname kwargs f 0 fuel = retry fname kwargs f := by
  have hfin : finished (retryFuel fname kwargs f 0 13).fst = true :=
    retryFuel_finished fname kwargs f 13 0 (by omega) (by omega)
  exact ⟨hfin, fun fuel hf => retryFuel_mono fname kwargs f 13 0 hfin fuel hf⟩

/-- C9, witness at the always-failing operation with surplus fuel. -/
theorem C9_terminates_witness :
    finished (retry "op" [] alwaysFail).fst = true ∧
      retryFuel "op" [] alwaysFail 0 20 = retry "op" [] alwaysFail :=
  ⟨(C9_terminates "op" [] alwaysFail).1,
    (C9_terminates "op" [] alwaysFail).2 20 (by omega)⟩

/-- C10: a two-row group whose team identifiers are equal is processed with
no warning and no error; both rows receive the second row's `pts` and `poss`
as their opponent fields, so the second row receives its own values. -/
theorem C10_equal_team_ids (games : List Row) (year : Int) (gid : String)
    (a b : Row) (hg : game_id_index games gid = [a, b])
    (heq : a.team_id = b.team_id) :
    (∀ j, games.get? j = some a →
      (dump_team_eff_json games year).fst.get? j =
        some { a with opp_pts := some b.pts, opp_poss := some b.poss }) ∧
    (∀ j, games.get? j = some b →
      (dump_team_eff_json games year).fst.get? j =
        some { b with opp_pts := some b.pts, opp_poss := some b.poss }) ∧
    (processRow (game_id_index games) year a).snd = none ∧
    (processRow (game_id_index games) year b).snd = none := by
  refine ⟨?_, ?_, ?_, ?_⟩
  · intro j hj
    rw [dump_fst_get?, hj]
    simp [processRow_pair_first games year gid a b hg]
  · intro j hj
    rw [dump_fst_get?, hj]
    simp [processRow_pair_second_eqid games year gid a b hg heq]
  · rw [processRow_pair_first games year gid a b hg]
  · rw [processRow_pair_second_eqid games year gid a b hg heq]

/-- C10, witness at a duplicated-team-identifier group. -/
theorem C10_equal_team_ids_witness :
    (dump_team_eff_json [rowC, rowD] 2024).fst.get? 0 =
        some { rowC with opp_pts := some 95, opp_poss := some 88 } ∧
      (dump_team_eff_json [rowC, rowD] 2024).fst.get? 1 =
        some { rowD with opp_pts := some 95, opp_poss := some 88 } ∧
      (processRow (game_id_index [rowC, rowD]) 2024 rowD).snd = none := by
  have h := C10_equal_team_ids [rowC, rowD] 2024 "G2" rowC rowD (by decide) (by decide)
  exact ⟨h.1 0 rfl, h.2.1 1 rfl, h.2.2.2⟩

end NbaData
